import Mathlib

/-!
Verification of the connection-resolution subsystem of TruPlexPhotos.

The development shallowly embeds the connection resolver of
`src/services/plexService.ts` (the module-level cache `workingServerUrl`,
`getServerUrl`, `testServerConnection`, `fetchWithFallback`,
`getPhotosRecursively`) and the descriptor construction of
`src/services/authService.ts` (`resourceToServer`).

Modelling conventions:
* The network is an oracle `Transport : Request → AttemptOutcome` mapping each
  issued HTTP request to its outcome (a response, or a thrown error such as a
  network failure or timeout).  Per-request timeouts are absorbed into the
  `exn` outcome: `fetchWithTimeout` surfaces a timeout as a thrown `Error`,
  which the scan treats like any other exception.
* The module-level mutable `workingServerUrl : string | null` becomes explicit
  state of type `Option String`; each operation takes the cache before the call
  and the embedding returns the cache after the call.
* Fallible code returns `Except PlexError Response`.
* JavaScript `array.includes(x)` on strings is membership, `string.includes(c)`
  for a single character is `String.toList.contains c`, `a?.b` optional
  chaining on a possibly-absent field is a `match` on `Option`, and `x || []`
  on a possibly-undefined array field is `Option.getD`.
* `Array.prototype.sort` is stable (ECMAScript 2019), so sorting with the
  comparator `a.local === b.local ? 0 : (a.local ? 1 : -1)` produces exactly
  the non-local connections in input order followed by the local connections in
  input order; the embedding uses that stable partition directly.
* Each scanning loop additionally records the list of attempts it issued, in
  order; this instrumentation is read off the same control flow as the source
  loop and is what the attempt-ordering theorems quantify over.
-/

namespace TruPlexPhotos

/-- An HTTP response as observed by the resolver: the status code plus an
opaque body.  `Response.ok` of the fetch API is "status in the range 200-299". -/
structure Response where
  status : Nat
  body : String
deriving Repr, DecidableEq

/-- `response.ok` of the WHATWG fetch API: 2xx status. -/
def Response.ok (r : Response) : Bool :=
  decide (200 ≤ r.status) && decide (r.status < 300)

/-- One HTTP request as issued by the resolver: full URL, header list, method. -/
structure Request where
  url : String
  headers : List (String × String)
  method : String
deriving Repr, DecidableEq

/-- Outcome of one `fetchWithTimeout` call: either a response arrived, or an
exception was thrown (network error, abort, timeout message). -/
inductive AttemptOutcome where
  | resp (r : Response)
  | exn (msg : String)
deriving Repr, DecidableEq

/-- The network oracle: what each concrete request would produce. -/
abbrev Transport := Request → AttemptOutcome

/-- Whether an attempt outcome is a 2xx response (the loop's success test). -/
def outcomeOk (o : AttemptOutcome) : Bool :=
  match o with
  | .resp r => r.ok
  | .exn _ => false

/-- The response carried by a successful outcome (dummy for exceptions). -/
def outcomeResponse (o : AttemptOutcome) : Response :=
  match o with
  | .resp r => r
  | .exn _ => { status := 0, body := "" }

/-- Errors recorded by `fetchWithFallback`:
`http s` is `new Error("HTTP " + status)` for a non-2xx response,
`net m` is a rethrown fetch/timeout exception, and
`noConnectionUris` is `new Error('No connection URIs available')`. -/
inductive PlexError where
  | http (status : Nat)
  | net (msg : String)
  | noConnectionUris
deriving Repr, DecidableEq

/-- The error `fetchWithFallback` records for a failed attempt (line 212 and
line 218 of `plexService.ts`). -/
def attemptError (o : AttemptOutcome) : PlexError :=
  match o with
  | .resp r => .http r.status
  | .exn m => .net m

instance : DecidableEq (Except PlexError Response) := fun a b =>
  match a, b with
  | .ok x, .ok y => decidable_of_iff (x = y) (by simp)
  | .error x, .error y => decidable_of_iff (x = y) (by simp)
  | .ok _, .error _ => isFalse (by simp)
  | .error _, .ok _ => isFalse (by simp)

/-- One candidate network path of a Plex resource (`PlexConnection` in
`src/types/index.ts`). -/
structure PlexConnection where
  protocol : String
  address : String
  port : Nat
  uri : String
  «local» : Bool
deriving Repr, DecidableEq

/-- A server descriptor (`PlexServer` in `src/types/index.ts`).
`connectionUris` is declared required in the TypeScript interface but old
saved data may lack it (`server.connectionUris || []` in the code), so it is
embedded as an `Option`. -/
structure PlexServer where
  name : String
  address : String
  port : Nat
  version : String
  scheme : String
  host : String
  localAddresses : String
  machineIdentifier : String
  accessToken : String
  owned : Bool
  synced : Bool
  connectionUris : Option (List String)
deriving Repr, DecidableEq

/-- An upstream resource entry (`PlexResource` in `src/types/index.ts`,
restricted to the fields `resourceToServer` reads).  `connections` is guarded
by `resource.connections || []` in the code, hence an `Option`. -/
structure PlexResource where
  name : String
  productVersion : String
  clientIdentifier : String
  provides : String
  owned : Bool
  accessToken : String
  connections : Option (List PlexConnection)
deriving Repr, DecidableEq

/-- The connection sort of `resourceToServer` (`authService.ts` lines 138-141):
a stable sort by the comparator `a.local === b.local ? 0 : (a.local ? 1 : -1)`,
i.e. the non-local connections in input order followed by the local
connections in input order. -/
def sortConnectionsRemoteFirst (connections : List PlexConnection) : List PlexConnection :=
  connections.filter (fun c => !c.«local») ++ connections.filter (fun c => c.«local»)

/-- `resourceToServer` (`authService.ts` lines 131-165). -/
def resourceToServer (resource : PlexResource) : Option PlexServer :=
  if resource.provides ≠ "server" then none
  else
    let connections := resource.connections.getD []
    if connections.length = 0 then none
    else
      let sortedConnections := sortConnectionsRemoteFirst connections
      -- `sortedConnections[0]`; the list is nonempty because `connections` is.
      let bestConnection := sortedConnections.headD
        { protocol := "", address := "", port := 0, uri := "", «local» := false }
      let connectionUris := sortedConnections.map (fun c => c.uri)
      some
        { name := resource.name
          address := bestConnection.address
          port := bestConnection.port
          version := resource.productVersion
          scheme := bestConnection.protocol
          host := bestConnection.address
          localAddresses :=
            String.intercalate ","
              ((connections.filter (fun c => c.«local»)).map (fun c => c.address))
          machineIdentifier := resource.clientIdentifier
          accessToken := resource.accessToken
          owned := resource.owned
          synced := false
          connectionUris := some connectionUris }

/-- `getServerUrl` (`plexService.ts` lines 40-42): the synthesized fallback
base URL built from the descriptor's scheme, address and port. -/
def getServerUrl (server : PlexServer) : String :=
  server.scheme ++ "://" ++ server.address ++ ":" ++ toString server.port

/-- Options of `fetchWithFallback` (`plexService.ts` lines 131-136), with the
defaults applied by its destructuring (line 145). -/
structure FetchOptions where
  extraParams : Option (List (String × String)) := none
  timeout : Nat := 10000
  silent : Bool := false
  method : String := "GET"
deriving Repr, DecidableEq

/-- The URI list built by `fetchWithFallback` (`plexService.ts` lines 149-172),
as a function of the cached `workingServerUrl`, the descriptor, and the
`silent` option. -/
def buildUrisToTry (workingServerUrl : Option String) (server : PlexServer)
    (silent : Bool) : List String :=
  let connectionUris := server.connectionUris.getD []
  let fallbackUrl := getServerUrl server
  match workingServerUrl with
  | some w =>
    if silent then [w]
    else
      let uris := w :: connectionUris.filter (fun u => u ≠ w)
      if fallbackUrl ∈ uris then uris else uris ++ [fallbackUrl]
  | none =>
    if connectionUris.length > 0 then
      if fallbackUrl ∈ connectionUris then connectionUris
      else connectionUris ++ [fallbackUrl]
    else [fallbackUrl]

/-- The `&`-joined extra-parameter string (`plexService.ts` lines 181-183);
`encodeURIComponent` is kept abstract. -/
def extraParamsString (encodeURIComponent : String → String)
    (extraParams : Option (List (String × String))) : String :=
  match extraParams with
  | none => ""
  | some ps =>
    String.intercalate "&" (ps.map (fun kv => kv.1 ++ "=" ++ encodeURIComponent kv.2))

/-- `const separator = path.includes('?') ? '&' : '?'` (line 185). -/
def querySeparator (path : String) : String :=
  if path.toList.contains '?' then "&" else "?"

/-- `const queryString = extraParamsStr ? tokenParam + '&' + extraParamsStr
: tokenParam` (lines 184-186). -/
def fetchQueryString (encodeURIComponent : String → String) (token : String)
    (extraParams : Option (List (String × String))) : String :=
  let tokenParam := "X-Plex-Token=" ++ token
  let extraParamsStr := extraParamsString encodeURIComponent extraParams
  if extraParamsStr ≠ "" then tokenParam ++ "&" ++ extraParamsStr else tokenParam

/-- The full URL of one `fetchWithFallback` attempt (line 189). -/
def fetchAttemptUrl (encodeURIComponent : String → String) (path token : String)
    (extraParams : Option (List (String × String))) (baseUrl : String) : String :=
  baseUrl ++ path ++ querySeparator path ++ fetchQueryString encodeURIComponent token extraParams

/-- The headers sent by every `fetchWithFallback` attempt (line 197): only
`Accept`; the token travels in the URL instead. -/
def fetchHeaders : List (String × String) := [("Accept", "application/json")]

/-- The request issued for one base URL in the `fetchWithFallback` scan
(lines 188-198). -/
def fetchAttemptRequest (encodeURIComponent : String → String) (path token : String)
    (extraParams : Option (List (String × String))) (method : String)
    (baseUrl : String) : Request :=
  { url := fetchAttemptUrl encodeURIComponent path token extraParams baseUrl
    headers := fetchHeaders
    method := method }

/-- Result of one `fetchWithFallback` call: the returned/thrown value, the
cache after the call, and the base URLs attempted in order. -/
structure FetchResult where
  result : Except PlexError Response
  workingServerUrl : Option String
  attempted : List String
deriving Repr, DecidableEq

/-- The scan loop of `fetchWithFallback` (`plexService.ts` lines 178-222):
walk the URI list; a 2xx response is returned at once and recorded in the
cache; a non-2xx response records `HTTP status` as the last error; an
exception records itself; exhaustion throws the last error, or
`noConnectionUris` if no attempt was ever made. -/
def tryUrisLoop (transport : Transport) (mkReq : String → Request)
    (workingServerUrl : Option String) (lastError : Option PlexError) :
    List String → FetchResult
  | [] =>
    { result := .error (lastError.getD .noConnectionUris)
      workingServerUrl := workingServerUrl
      attempted := [] }
  | baseUrl :: rest =>
    match transport (mkReq baseUrl) with
    | .resp response =>
      if response.ok then
        { result := .ok response
          workingServerUrl := some baseUrl
          attempted := [baseUrl] }
      else
        let tail := tryUrisLoop transport mkReq workingServerUrl
          (some (.http response.status)) rest
        { tail with attempted := baseUrl :: tail.attempted }
    | .exn msg =>
      let tail := tryUrisLoop transport mkReq workingServerUrl
        (some (.net msg)) rest
      { tail with attempted := baseUrl :: tail.attempted }

/-- `fetchWithFallback` (`plexService.ts` lines 139-223), with the module
cache threaded explicitly. -/
def fetchWithFallback (transport : Transport) (encodeURIComponent : String → String)
    (workingServerUrl : Option String) (server : PlexServer)
    (path token : String) (options : FetchOptions) : FetchResult :=
  tryUrisLoop transport
    (fetchAttemptRequest encodeURIComponent path token options.extraParams options.method)
    workingServerUrl none
    (buildUrisToTry workingServerUrl server options.silent)

/-- The headers of a `testServerConnection` probe attempt (`plexService.ts`
lines 82-87): unlike `fetchWithFallback`, the token is sent as the
`X-Plex-Token` header. -/
def probeHeaders (server : PlexServer) : List (String × String) :=
  [("Accept", "application/json"), ("X-Plex-Token", server.accessToken)]

/-- The request issued for one base URL in the `testServerConnection` scan
(lines 79-87): `baseUrl + "/identity"` with the token header. -/
def probeRequest (server : PlexServer) (baseUrl : String) : Request :=
  { url := baseUrl ++ "/identity"
    headers := probeHeaders server
    method := "GET" }

/-- The scan loop of `testServerConnection` (lines 79-102): a 2xx response
returns `true` at once; any other outcome — including HTTP 401, which is only
logged — continues with the remaining URIs; exhaustion yields `false`. -/
def probeLoop (transport : Transport) (server : PlexServer) :
    List String → Bool × List Request
  | [] => (false, [])
  | baseUrl :: rest =>
    let req := probeRequest server baseUrl
    match transport req with
    | .resp response =>
      if response.ok then (true, [req])
      else
        let tail := probeLoop transport server rest
        (tail.1, req :: tail.2)
    | .exn _ =>
      let tail := probeLoop transport server rest
      (tail.1, req :: tail.2)

/-- `testServerConnection` (`plexService.ts` lines 67-106), returning the
boolean of the source together with the requests the scan issued. -/
def testServerConnection (transport : Transport) (server : PlexServer) :
    Bool × List Request :=
  let urisToTry := server.connectionUris.getD []
  if urisToTry.length = 0 then (false, [])
  else probeLoop transport server urisToTry

/-- `testServerConnection` as a transformer of the module state: its body
never reads or assigns `workingServerUrl`, so the cache passes through
untouched. -/
def testServerConnectionState (transport : Transport) (server : PlexServer)
    (workingServerUrl : Option String) : (Bool × List Request) × Option String :=
  (testServerConnection transport server, workingServerUrl)

/-- The fields of a directory listing entry read by `getPhotosRecursively`
(`plexService.ts` lines 295-313): the optional `key`, the `type` string, and
whether a `Media` array is present. -/
structure PlexPhotoItem where
  key : Option String
  type : String
  hasMedia : Bool
deriving Repr, DecidableEq

/-- `item.key?.includes('/children')`: substring test on the key. -/
def hasChildrenKey (k : String) : Bool :=
  decide ("/children".toList <:+: k.toList)

/-- The container test of `getPhotosRecursively` (lines 297-298). -/
def isContainerItem (item : PlexPhotoItem) : Bool :=
  (match item.key with
   | some k => hasChildrenKey k
   | none => false) ||
  (item.type = "photo" && !item.hasMedia)

/-- The media-leaf test of `getPhotosRecursively` (line 300). -/
def isMediaType (item : PlexPhotoItem) : Bool :=
  item.type = "photo" || item.type = "clip" || item.type = "video"

/-- `getPhotosRecursively` (`plexService.ts` lines 280-317).  The network is
the oracle `contents`, standing for `getDirectoryContents` (which returns the
`Metadata` list, or `[]` on error).  A call with `depth > maxDepth` returns
`[]` before any request; otherwise each non-leaf item with a key is recursed
into with `depth + 1`. -/
def getPhotosRecursively (contents : String → List PlexPhotoItem)
    (directoryKey : String) (depth maxDepth : Nat) : List PlexPhotoItem :=
  if h : depth > maxDepth then []
  else
    (contents directoryKey).flatMap (fun item =>
      if !isContainerItem item && isMediaType item then [item]
      else
        match item.key with
        | some k => getPhotosRecursively contents k (depth + 1) maxDepth
        | none => [])
termination_by maxDepth + 1 - depth
decreasing_by omega

/-- The directory requests performed by `getPhotosRecursively`, with the depth
at which each was issued; same control flow as `getPhotosRecursively`, reading
off every `getDirectoryContents` call. -/
def getPhotosRecursivelyRequests (contents : String → List PlexPhotoItem)
    (directoryKey : String) (depth maxDepth : Nat) : List (String × Nat) :=
  if h : depth > maxDepth then []
  else
    (directoryKey, depth) ::
    (contents directoryKey).flatMap (fun item =>
      if !isContainerItem item && isMediaType item then []
      else
        match item.key with
        | some k => getPhotosRecursivelyRequests contents k (depth + 1) maxDepth
        | none => [])
termination_by maxDepth + 1 - depth
decreasing_by omega

/-- A concrete descriptor with two candidate endpoints, used to instantiate
theorems on closed inputs. -/
def sampleServer : PlexServer :=
  { name := "srv", address := "f", port := 9, version := "1", scheme := "http"
    host := "f", localAddresses := "", machineIdentifier := "m"
    accessToken := "tok", owned := true, synced := false
    connectionUris := some ["http://a:1", "http://b:2"] }

/-- A descriptor whose candidate list repeats one URI. -/
def dupServer : PlexServer :=
  { name := "srv", address := "f", port := 9, version := "1", scheme := "http"
    host := "f", localAddresses := "", machineIdentifier := "m"
    accessToken := "tok", owned := true, synced := false
    connectionUris := some ["http://a:1", "http://a:1"] }

/-- A descriptor with a single candidate endpoint, used for probe examples. -/
def probeServer : PlexServer :=
  { name := "srv", address := "f", port := 9, version := "1", scheme := "http"
    host := "f", localAddresses := "", machineIdentifier := "m"
    accessToken := "tok", owned := true, synced := false
    connectionUris := some ["http://a:1"] }

/-- A transport on which every request throws a network error. -/
def failTransport : Transport := fun _ => .exn "ECONNREFUSED"

/-- A transport that answers 200 exactly for the second candidate of
`sampleServer` under the data-request URL construction. -/
def okTransport : Transport := fun req =>
  if req.url = "http://b:2/p?X-Plex-Token=tok" then .resp { status := 200, body := "payload" }
  else .exn "ECONNREFUSED"

/-- A directory oracle in which every listing contains one container item. -/
def loopContents : String → List PlexPhotoItem :=
  fun _ => [{ key := some "sub", type := "photo", hasMedia := false }]

/-! ### Lemmas about the `fetchWithFallback` scan loop -/

/-- If every URI before `s` fails and `s` yields a 2xx response, the scan
returns the response of `s`, caches `s`, and attempts exactly the failing
prefix followed by `s`. -/
lemma tryUrisLoop_first_success (transport : Transport) (mkReq : String → Request) :
    ∀ (pre : List String) (s : String) (post : List String)
      (cache : Option String) (le : Option PlexError),
      (∀ u ∈ pre, outcomeOk (transport (mkReq u)) = false) →
      outcomeOk (transport (mkReq s)) = true →
      tryUrisLoop transport mkReq cache le (pre ++ s :: post) =
        { result := .ok (outcomeResponse (transport (mkReq s)))
          workingServerUrl := some s
          attempted := pre ++ [s] } := by
  intro pre
  induction pre with
  | nil =>
    intro s post cache le _ hs
    rcases htr : transport (mkReq s) with r | m
    · rw [htr] at hs
      simp only [outcomeOk] at hs
      simp [tryUrisLoop, htr, hs, outcomeResponse]
    · rw [htr] at hs
      simp [outcomeOk] at hs
  | cons u pre ih =>
    intro s post cache le hpre hs
    have hu : outcomeOk (transport (mkReq u)) = false := hpre u (by simp)
    have hrest : ∀ v ∈ pre, outcomeOk (transport (mkReq v)) = false :=
      fun v hv => hpre v (by simp [hv])
    rcases htr : transport (mkReq u) with r | m
    · rw [htr] at hu
      simp only [outcomeOk] at hu
      simp [tryUrisLoop, htr, hu, ih s post cache _ hrest hs]
    · simp [tryUrisLoop, htr, ih s post cache _ hrest hs]

/-- If every URI in the list fails, the scan attempts all of them, leaves the
cache unchanged, and throws the error of the last attempt (or
`noConnectionUris` if the list was empty and no error was recorded before). -/
lemma tryUrisLoop_all_fail (transport : Transport) (mkReq : String → Request) :
    ∀ (uris : List String) (cache : Option String) (le : Option PlexError),
      (∀ u ∈ uris, outcomeOk (transport (mkReq u)) = false) →
      tryUrisLoop transport mkReq cache le uris =
        { result := .error
            (match uris.getLast? with
             | some u => attemptError (transport (mkReq u))
             | none => le.getD .noConnectionUris)
          workingServerUrl := cache
          attempted := uris } := by
  intro uris
  induction uris with
  | nil => intro cache le _; simp [tryUrisLoop]
  | cons u rest ih =>
    intro cache le hfail
    have hu : outcomeOk (transport (mkReq u)) = false := hfail u (by simp)
    have hrest : ∀ v ∈ rest, outcomeOk (transport (mkReq v)) = false :=
      fun v hv => hfail v (by simp [hv])
    rcases htr : transport (mkReq u) with r | m
    · rw [htr] at hu
      simp only [outcomeOk] at hu
      have hstep : tryUrisLoop transport mkReq cache le (u :: rest) =
          { tryUrisLoop transport mkReq cache (some (.http r.status)) rest with
            attempted := u ::
              (tryUrisLoop transport mkReq cache (some (.http r.status)) rest).attempted } := by
        simp [tryUrisLoop, htr, hu]
      rw [hstep, ih _ (some (.http r.status)) hrest]
      cases rest with
      | nil => simp [htr, attemptError, Option.getD]
      | cons v t =>
        rcases hl : (v :: t).getLast? with _ | w
        · simp at hl
        · simp [hl]
    · have hstep : tryUrisLoop transport mkReq cache le (u :: rest) =
          { tryUrisLoop transport mkReq cache (some (.net m)) rest with
            attempted := u ::
              (tryUrisLoop transport mkReq cache (some (.net m)) rest).attempted } := by
        simp [tryUrisLoop, htr]
      rw [hstep, ih _ (some (.net m)) hrest]
      cases rest with
      | nil => simp [htr, attemptError, Option.getD]
      | cons v t =>
        rcases hl : (v :: t).getLast? with _ | w
        · simp at hl
        · simp [hl]

/-- The attempted base URLs are always an initial segment of the URI list. -/
lemma tryUrisLoop_attempted_prefix (transport : Transport) (mkReq : String → Request) :
    ∀ (uris : List String) (cache : Option String) (le : Option PlexError),
      ∃ k, (tryUrisLoop transport mkReq cache le uris).attempted = uris.take k := by
  intro uris
  induction uris with
  | nil => intro cache le; exact ⟨0, rfl⟩
  | cons u rest ih =>
    intro cache le
    rcases htr : transport (mkReq u) with r | m
    · by_cases hok : r.ok
      · exact ⟨1, by simp [tryUrisLoop, htr, hok]⟩
      · obtain ⟨k, hk⟩ := ih cache (some (.http r.status))
        exact ⟨k + 1, by simp [tryUrisLoop, htr, hok, hk]⟩
    · obtain ⟨k, hk⟩ := ih cache (some (.net m))
      exact ⟨k + 1, by simp [tryUrisLoop, htr, hk]⟩

/-- A scan that ends in an error leaves the cache untouched. -/
lemma tryUrisLoop_error_cache (transport : Transport) (mkReq : String → Request) :
    ∀ (uris : List String) (cache : Option String) (le : Option PlexError)
      (e : PlexError),
      (tryUrisLoop transport mkReq cache le uris).result = .error e →
      (tryUrisLoop transport mkReq cache le uris).workingServerUrl = cache := by
  intro uris
  induction uris with
  | nil => intro cache le e _; rfl
  | cons u rest ih =>
    intro cache le e herr
    rcases htr : transport (mkReq u) with r | m
    · by_cases hok : r.ok
      · rw [show tryUrisLoop transport mkReq cache le (u :: rest) =
            { result := .ok r, workingServerUrl := some u, attempted := [u] } from by
              simp [tryUrisLoop, htr, hok]] at herr
        simp at herr
      · simp only [tryUrisLoop, htr, hok, if_neg, Bool.false_eq_true, if_false] at herr ⊢
        exact ih cache (some (.http r.status)) e herr
    · simp only [tryUrisLoop, htr] at herr ⊢
      exact ih cache (some (.net m)) e herr

/-- A one-element scan attempts exactly that element. -/
lemma tryUrisLoop_singleton_attempted (transport : Transport) (mkReq : String → Request)
    (cache : Option String) (le : Option PlexError) (u : String) :
    (tryUrisLoop transport mkReq cache le [u]).attempted = [u] := by
  rcases htr : transport (mkReq u) with r | m
  · by_cases hok : r.ok <;> simp [tryUrisLoop, htr, hok]
  · simp [tryUrisLoop, htr]

/-! ### Lemmas about the URI list construction -/

/-- `fetchWithFallback` always has at least one URI to try: the synthesized
fallback guarantees the list is nonempty in every branch. -/
lemma buildUrisToTry_ne_nil (workingServerUrl : Option String) (server : PlexServer)
    (silent : Bool) : buildUrisToTry workingServerUrl server silent ≠ [] := by
  unfold buildUrisToTry
  rcases workingServerUrl with _ | w
  · by_cases hl : (server.connectionUris.getD []).length > 0
    · simp only [hl, if_true]
      split
      · intro hc
        rw [hc] at hl
        simp at hl
      · simp
    · simp [hl]
  · by_cases hs : silent
    · simp [hs]
    · simp only [hs, Bool.false_eq_true, if_false]
      split <;> simp

/-- The URI list has at most `N + 2` entries, for `N` candidate endpoints. -/
lemma buildUrisToTry_length_le (workingServerUrl : Option String) (server : PlexServer)
    (silent : Bool) :
    (buildUrisToTry workingServerUrl server silent).length ≤
      (server.connectionUris.getD []).length + 2 := by
  unfold buildUrisToTry
  rcases workingServerUrl with _ | w
  · by_cases hl : (server.connectionUris.getD []).length > 0
    · simp only [hl, if_true]
      split
      · omega
      · simp only [List.length_append, List.length_cons, List.length_nil]
        omega
    · simp [hl]
  · by_cases hs : silent
    · simp [hs]
    · have hfw := List.length_filter_le (fun u => u ≠ w) (server.connectionUris.getD [])
      simp only [hs, Bool.false_eq_true, if_false]
      split
      · simp only [List.length_cons]
        omega
      · simp only [List.length_append, List.length_cons, List.length_nil]
        omega

/-- If the descriptor's candidate list has no duplicate URIs, neither does the
URI list that `fetchWithFallback` builds. -/
lemma buildUrisToTry_nodup (workingServerUrl : Option String) (server : PlexServer)
    (silent : Bool) (hnd : (server.connectionUris.getD []).Nodup) :
    (buildUrisToTry workingServerUrl server silent).Nodup := by
  unfold buildUrisToTry
  rcases workingServerUrl with _ | w
  · by_cases hl : (server.connectionUris.getD []).length > 0
    · simp only [hl, if_true]
      split
      · exact hnd
      · rename_i hf
        simp [List.nodup_append, hnd, hf]
    · simp [hl]
  · by_cases hs : silent
    · simp [hs]
    · have hcons : (w :: List.filter (fun u => u ≠ w) (server.connectionUris.getD [])).Nodup := by
        refine List.nodup_cons.2 ⟨?_, hnd.filter _⟩
        intro hw
        have := List.of_mem_filter hw
        simp at this
      simp only [hs, Bool.false_eq_true, if_false]
      split
      · exact hcons
      · rename_i hf
        rw [← List.concat_eq_append]
        exact List.Nodup.concat hf hcons

/-! ### C1, C4, C5, C7: theorems about `fetchWithFallback` -/

/-- C1: For every descriptor, path, token and options, if some URI in the
attempt list yields a 2xx response (and every URI before it does not), then
`fetchWithFallback` returns that response, records that URI as the new
Resolved Endpoint — overwriting any previously cached value — and attempts no
URI that comes after it in the list. -/
theorem fetchWithFallback_first_2xx_wins
    (transport : Transport) (enc : String → String) (cache : Option String)
    (server : PlexServer) (path token : String) (options : FetchOptions)
    (pre post : List String) (s : String)
    (hsplit : buildUrisToTry cache server options.silent = pre ++ s :: post)
    (hpre : ∀ u ∈ pre,
      outcomeOk (transport
        (fetchAttemptRequest enc path token options.extraParams options.method u)) = false)
    (hs : outcomeOk (transport
      (fetchAttemptRequest enc path token options.extraParams options.method s)) = true) :
    fetchWithFallback transport enc cache server path token options =
      { result := .ok (outcomeResponse (transport
          (fetchAttemptRequest enc path token options.extraParams options.method s)))
        workingServerUrl := some s
        attempted := pre ++ [s] } := by
  unfold fetchWithFallback
  rw [hsplit]
  exact tryUrisLoop_first_success transport _ pre s post cache none hpre hs

/-- Closed instance of C1: on `sampleServer` with a transport that accepts
only the second candidate, the call returns that response, caches
`http://b:2`, and never attempts the synthesized fallback after it. -/
theorem fetchWithFallback_first_2xx_wins_witness :
    fetchWithFallback okTransport id none sampleServer "/p" "tok" {} =
      { result := .ok { status := 200, body := "payload" }
        workingServerUrl := some "http://b:2"
        attempted := ["http://a:1", "http://b:2"] } := by
  have h := fetchWithFallback_first_2xx_wins okTransport id none sampleServer "/p" "tok" {}
    ["http://a:1"] ["http://f:9"] "http://b:2" (by decide) (by decide) (by decide)
  exact h.trans (by decide)

/-- C4: Whenever a Resolved Endpoint is cached and `silent` is set,
`fetchWithFallback` builds a one-element URI list holding exactly the cached
endpoint, and its only attempt is that endpoint: no scan over the
descriptor's candidates or the synthesized fallback happens. -/
theorem fetchWithFallback_silent_cached_single_attempt
    (transport : Transport) (enc : String → String) (w : String)
    (server : PlexServer) (path token : String) (options : FetchOptions)
    (hsil : options.silent = true) :
    buildUrisToTry (some w) server options.silent = [w] ∧
    (fetchWithFallback transport enc (some w) server path token options).attempted = [w] := by
  have hb : buildUrisToTry (some w) server options.silent = [w] := by
    simp [buildUrisToTry, hsil]
  refine ⟨hb, ?_⟩
  unfold fetchWithFallback
  rw [hb]
  exact tryUrisLoop_singleton_attempted transport _ (some w) none w

/-- Closed instance of C4: with a cached endpoint and `silent := true`, even a
failing transport produces exactly one attempt, on the cached URL. -/
theorem fetchWithFallback_silent_cached_single_attempt_witness :
    buildUrisToTry (some "http://c:3") sampleServer true = ["http://c:3"] ∧
    (fetchWithFallback failTransport id (some "http://c:3") sampleServer "/p" "tok"
      { silent := true }).attempted = ["http://c:3"] :=
  fetchWithFallback_silent_cached_single_attempt failTransport id "http://c:3"
    sampleServer "/p" "tok" { silent := true } rfl

/-- C5: If every URI in the attempt list fails (non-2xx response or thrown
network error), `fetchWithFallback` rejects with the error recorded for the
last attempt; moreover the URI list is never empty — the synthesized fallback
is always derivable from the descriptor's scheme/address/port — so the
distinct `noConnectionUris` error is unreachable and the exhaustion error is
the only error the resolver propagates. -/
theorem fetchWithFallback_exhaustion_last_error
    (transport : Transport) (enc : String → String) (cache : Option String)
    (server : PlexServer) (path token : String) (options : FetchOptions)
    (hfail : ∀ u ∈ buildUrisToTry cache server options.silent,
      outcomeOk (transport
        (fetchAttemptRequest enc path token options.extraParams options.method u)) = false) :
    (fetchWithFallback transport enc cache server path token options).result =
      .error (attemptError (transport
        (fetchAttemptRequest enc path token options.extraParams options.method
          ((buildUrisToTry cache server options.silent).getLast
            (buildUrisToTry_ne_nil cache server options.silent))))) ∧
    (fetchWithFallback transport enc cache server path token options).result ≠
      .error .noConnectionUris := by
  have hall := tryUrisLoop_all_fail transport
    (fetchAttemptRequest enc path token options.extraParams options.method)
    (buildUrisToTry cache server options.silent) cache none hfail
  have hlast : (buildUrisToTry cache server options.silent).getLast? =
      some ((buildUrisToTry cache server options.silent).getLast
        (buildUrisToTry_ne_nil cache server options.silent)) :=
    List.getLast?_eq_getLast _ _
  unfold fetchWithFallback
  rw [hall, hlast]
  constructor
  · rfl
  · simp only [ne_eq, Except.error.injEq]
    rcases transport (fetchAttemptRequest enc path token options.extraParams options.method
      ((buildUrisToTry cache server options.silent).getLast
        (buildUrisToTry_ne_nil cache server options.silent))) with r | m <;>
      simp [attemptError]

/-- Closed instance of C5: on `sampleServer` with every request failing, the
call rejects with the network error of the last URI (the synthesized fallback
`http://f:9`), not with the `noConnectionUris` error. -/
theorem fetchWithFallback_exhaustion_last_error_witness :
    (fetchWithFallback failTransport id none sampleServer "/p" "tok" {}).result =
      .error (.net "ECONNREFUSED") ∧
    (fetchWithFallback failTransport id none sampleServer "/p" "tok" {}).result ≠
      .error .noConnectionUris := by
  have h := fetchWithFallback_exhaustion_last_error failTransport id none sampleServer
    "/p" "tok" {} (by decide)
  exact ⟨h.1.trans (by decide), h.2⟩

/-- C7: The Resolved Endpoint cache is written only by a 2xx attempt: a
`fetchWithFallback` call that rejects returns the cache exactly as it was
before the call, and `testServerConnection` — whose body never touches
`workingServerUrl` — leaves the cache unchanged for every state, even when
the probe succeeds. -/
theorem workingServerUrl_written_only_on_success
    (transport : Transport) (enc : String → String) (cache : Option String)
    (server : PlexServer) (path token : String) (options : FetchOptions)
    (e : PlexError)
    (herr : (fetchWithFallback transport enc cache server path token options).result =
      .error e) :
    (fetchWithFallback transport enc cache server path token options).workingServerUrl =
      cache ∧
    ∀ (probeTransport : Transport) (probeTarget : PlexServer) (st : Option String),
      (testServerConnectionState probeTransport probeTarget st).2 = st := by
  refine ⟨?_, fun _ _ _ => rfl⟩
  unfold fetchWithFallback at herr ⊢
  exact tryUrisLoop_error_cache transport _ _ cache none e herr

/-- Closed instance of C7: a fully failing call leaves the cached endpoint
`http://b:2` in place, and a succeeding probe passes any cache state through. -/
theorem workingServerUrl_written_only_on_success_witness :
    (fetchWithFallback failTransport id (some "http://b:2") sampleServer "/p" "tok"
      {}).workingServerUrl = some "http://b:2" ∧
    ∀ (probeTransport : Transport) (probeTarget : PlexServer) (st : Option String),
      (testServerConnectionState probeTransport probeTarget st).2 = st :=
  workingServerUrl_written_only_on_success failTransport id (some "http://b:2")
    sampleServer "/p" "tok" {} (.net "ECONNREFUSED") (by decide)

/-! ### C2: attempt count and duplicate attempts -/

/-- C2 fails as stated: `fetchWithFallback` never deduplicates the
descriptor's own candidate list.  On `dupServer`, whose candidate list repeats
`http://a:1`, a fully failing call attempts `http://a:1` twice. -/
theorem fetchWithFallback_duplicate_attempt_cex :
    (fetchWithFallback failTransport id none dupServer "/p" "tok" {}).attempted =
      ["http://a:1", "http://a:1", "http://f:9"] ∧
    ¬ (fetchWithFallback failTransport id none dupServer "/p" "tok" {}).attempted.Nodup := by
  exact ⟨by decide, by decide⟩

/-- C2 (amended): for every descriptor whose candidate list is duplicate-free,
a single `fetchWithFallback` call attempts at most `N + 2` URIs (cached +
candidates + synthesized fallback) and never attempts the same URI twice
within that call. -/
theorem fetchWithFallback_attempts_nodup_of_nodup
    (transport : Transport) (enc : String → String) (cache : Option String)
    (server : PlexServer) (path token : String) (options : FetchOptions)
    (hnd : (server.connectionUris.getD []).Nodup) :
    (fetchWithFallback transport enc cache server path token options).attempted.Nodup ∧
    (fetchWithFallback transport enc cache server path token options).attempted.length ≤
      (server.connectionUris.getD []).length + 2 := by
  obtain ⟨k, hk⟩ := tryUrisLoop_attempted_prefix transport
    (fetchAttemptRequest enc path token options.extraParams options.method)
    (buildUrisToTry cache server options.silent) cache none
  have hattempted :
      (fetchWithFallback transport enc cache server path token options).attempted =
        (buildUrisToTry cache server options.silent).take k := hk
  rw [hattempted]
  constructor
  · exact (buildUrisToTry_nodup cache server options.silent hnd).sublist
      (List.take_sublist k _)
  · calc ((buildUrisToTry cache server options.silent).take k).length
        ≤ (buildUrisToTry cache server options.silent).length :=
          List.Sublist.length_le (List.take_sublist k _)
      _ ≤ (server.connectionUris.getD []).length + 2 :=
          buildUrisToTry_length_le cache server options.silent

/-- Closed instance of C2 (amended): on `sampleServer`, whose candidates are
distinct, a fully failing call attempts three distinct URIs, within the bound
`N + 2 = 4`. -/
theorem fetchWithFallback_attempts_nodup_of_nodup_witness :
    (fetchWithFallback failTransport id none sampleServer "/p" "tok" {}).attempted.Nodup ∧
    (fetchWithFallback failTransport id none sampleServer "/p" "tok" {}).attempted.length ≤
      (sampleServer.connectionUris.getD []).length + 2 :=
  fetchWithFallback_attempts_nodup_of_nodup failTransport id none sampleServer "/p" "tok"
    {} (by decide)

/-! ### C6: the probe scan -/

/-- The probe scan succeeds exactly when some URI of the list yields a 2xx
response; every non-2xx outcome (including HTTP 401) continues the scan. -/
lemma probeLoop_true_iff (transport : Transport) (server : PlexServer) :
    ∀ uris : List String,
      (probeLoop transport server uris).1 = true ↔
        ∃ u ∈ uris, outcomeOk (transport (probeRequest server u)) = true := by
  intro uris
  induction uris with
  | nil => simp [probeLoop]
  | cons u rest ih =>
    rcases htr : transport (probeRequest server u) with r | m
    · by_cases hok : r.ok
      · simp [probeLoop, htr, hok, outcomeOk]
      · simp only [probeLoop, htr, hok, Bool.false_eq_true, if_false]
        simp only [List.mem_cons, exists_eq_or_imp]
        rw [ih]
        simp [htr, outcomeOk, hok]
    · simp only [probeLoop, htr]
      simp only [List.mem_cons, exists_eq_or_imp]
      rw [ih]
      simp [htr, outcomeOk]

/-- C6: `testServerConnection` returns `true` if and only if some candidate
endpoint yields a 2xx response; a candidate returning HTTP 401 (or any other
non-2xx status, or a network failure or timeout) does not abort the scan over
the remaining candidates, and a descriptor with an empty candidate list
yields `false`. -/
theorem testServerConnection_true_iff_some_2xx (transport : Transport)
    (server : PlexServer) :
    ((testServerConnection transport server).1 = true ↔
      ∃ u ∈ server.connectionUris.getD [],
        outcomeOk (transport (probeRequest server u)) = true) ∧
    (server.connectionUris.getD [] = [] → (testServerConnection transport server).1 = false) := by
  constructor
  · unfold testServerConnection
    by_cases hl : (server.connectionUris.getD []).length = 0
    · rw [List.length_eq_zero] at hl
      simp [hl]
    · simp only [hl, if_false]
      exact probeLoop_true_iff transport server _
  · intro hl
    unfold testServerConnection
    simp [hl]

/-! ### C3, C9: descriptor construction -/

/-- The stable remote-first sort flattens to `[]` only on an empty input. -/
lemma sortConnectionsRemoteFirst_eq_nil_iff (cs : List PlexConnection) :
    sortConnectionsRemoteFirst cs = [] ↔ cs = [] := by
  unfold sortConnectionsRemoteFirst
  constructor
  · intro h
    rw [List.append_eq_nil] at h
    cases cs with
    | nil => rfl
    | cons c t =>
      by_cases hc : c.«local»
      · have hmem : c ∈ List.filter (fun c => c.«local») (c :: t) :=
          List.mem_filter.2 ⟨by simp, by simp [hc]⟩
        rw [h.2] at hmem
        simp at hmem
      · have hmem : c ∈ List.filter (fun c => !c.«local») (c :: t) :=
          List.mem_filter.2 ⟨by simp, by simp [hc]⟩
        rw [h.1] at hmem
        simp at hmem
  · intro h
    simp [h]

/-- Inversion of `resourceToServer` on a usable resource: the descriptor's
candidate list is exactly the remote-first sorted connection URIs. -/
lemma resourceToServer_connectionUris (resource : PlexResource) (s : PlexServer)
    (h : resourceToServer resource = some s) :
    s.connectionUris =
      some ((sortConnectionsRemoteFirst (resource.connections.getD [])).map
        (fun c => c.uri)) := by
  simp only [resourceToServer] at h
  split at h
  · exact absurd h (by simp)
  · split at h
    · exact absurd h (by simp)
    · rw [Option.some_inj] at h
      rw [← h]

/-- C3: remote candidates are issued before local candidates.  First, in the
sorted connection list every non-local connection sits strictly before every
local one, for all input orders.  Second, every descriptor built by
`resourceToServer` carries its candidate URIs in exactly that remote-first
order.  Third, with no cached endpoint `fetchWithFallback` scans the
candidates as a prefix of its attempt list, in the descriptor's order — so
all remote candidates are attempted before any local one. -/
theorem resolver_remote_before_local :
    (∀ (connections : List PlexConnection) (i j : Nat)
        (hi : i < (sortConnectionsRemoteFirst connections).length)
        (hj : j < (sortConnectionsRemoteFirst connections).length),
        ((sortConnectionsRemoteFirst connections)[i]).«local» = false →
        ((sortConnectionsRemoteFirst connections)[j]).«local» = true →
        i < j) ∧
    (∀ (resource : PlexResource) (s : PlexServer), resourceToServer resource = some s →
        s.connectionUris =
          some ((sortConnectionsRemoteFirst (resource.connections.getD [])).map
            (fun c => c.uri))) ∧
    (∀ (server : PlexServer) (silent : Bool) (uris : List String),
        server.connectionUris = some uris → uris ≠ [] →
        ∃ tail, buildUrisToTry none server silent = uris ++ tail) := by
  refine ⟨?_, resourceToServer_connectionUris, ?_⟩
  · intro cs i j hi hj hfalse htrue
    unfold sortConnectionsRemoteFirst at hi hj hfalse htrue
    have hiA : i < (List.filter (fun c => !c.«local») cs).length := by
      by_contra hge
      push_neg at hge
      have hmem : (List.filter (fun c => !c.«local») cs ++
          List.filter (fun c => c.«local») cs)[i] ∈ List.filter (fun c => c.«local») cs := by
        rw [List.getElem_append_right hge]
        exact List.getElem_mem _
      have hloc := List.of_mem_filter hmem
      rw [hfalse] at hloc
      exact absurd hloc (by simp)
    have hjA : (List.filter (fun c => !c.«local») cs).length ≤ j := by
      by_contra hlt
      push_neg at hlt
      have hmem : (List.filter (fun c => !c.«local») cs ++
          List.filter (fun c => c.«local») cs)[j] ∈ List.filter (fun c => !c.«local») cs := by
        rw [List.getElem_append_left hlt]
        exact List.getElem_mem _
      have hloc := List.of_mem_filter hmem
      rw [htrue] at hloc
      exact absurd hloc (by simp)
    omega
  · intro server silent uris hcu hne
    have hl : uris.length > 0 := List.length_pos.2 hne
    simp only [buildUrisToTry, hcu, Option.getD_some, hl, if_true]
    by_cases hf : getServerUrl server ∈ uris
    · exact ⟨[], by simp [hf]⟩
    · exact ⟨[getServerUrl server], by simp [hf]⟩

/-- A local connection, used in closed examples. -/
def localConn : PlexConnection :=
  { protocol := "http", address := "l", port := 1, uri := "http://l:1", «local» := true }

/-- A first remote connection, used in closed examples. -/
def remoteA : PlexConnection :=
  { protocol := "http", address := "ra", port := 2, uri := "http://ra:2", «local» := false }

/-- A second remote connection, used in closed examples. -/
def remoteB : PlexConnection :=
  { protocol := "http", address := "rb", port := 3, uri := "http://rb:3", «local» := false }

/-- A usable resource whose connections arrive in the order
[local, remote-A, remote-B]. -/
def sampleResource : PlexResource :=
  { name := "res", productVersion := "1", clientIdentifier := "cid"
    provides := "server", owned := true, accessToken := "tok"
    connections := some [localConn, remoteA, remoteB] }

/-- Closed instance of C3: for input order [local, remote-A, remote-B], the
sorted list puts remote-A (position 0) before local (position 2), and on a
descriptor the candidate list heads the no-cache attempt list. -/
theorem resolver_remote_before_local_witness :
    (0 : Nat) < 2 ∧
    sortConnectionsRemoteFirst [localConn, remoteA, remoteB] =
      [remoteA, remoteB, localConn] ∧
    ∃ tail, buildUrisToTry none probeServer false = ["http://a:1"] ++ tail := by
  refine ⟨?_, by decide, ?_⟩
  · exact resolver_remote_before_local.1 [localConn, remoteA, remoteB] 0 2
      (by decide) (by decide) (by decide) (by decide)
  · exact resolver_remote_before_local.2.2 probeServer false ["http://a:1"] rfl (by decide)

/-- C9: `resourceToServer` returns `none` when the resource does not provide
`server` or its connection list is empty or absent, and every descriptor it
does return has a present, nonempty `connectionUris` list. -/
theorem resourceToServer_usable_invariants (resource : PlexResource) :
    ((resource.provides ≠ "server" ∨ resource.connections.getD [] = []) →
      resourceToServer resource = none) ∧
    (∀ s : PlexServer, resourceToServer resource = some s →
      ∃ uris, s.connectionUris = some uris ∧ uris ≠ []) := by
  constructor
  · intro h
    rcases h with hp | hc
    · simp [resourceToServer, hp]
    · by_cases hp2 : resource.provides ≠ "server"
      · simp [resourceToServer, hp2]
      · simp [resourceToServer, hp2, hc]
  · intro s h
    refine ⟨(sortConnectionsRemoteFirst (resource.connections.getD [])).map
      (fun c => c.uri), resourceToServer_connectionUris resource s h, ?_⟩
    intro hnil
    rw [List.map_eq_nil_iff, sortConnectionsRemoteFirst_eq_nil_iff] at hnil
    simp only [resourceToServer] at h
    split at h
    · exact absurd h (by simp)
    · split at h
      · exact absurd h (by simp)
      · rename_i hlen
        rw [hnil] at hlen
        simp at hlen

/-- Closed instance of C9: `sampleResource` yields a descriptor whose
candidate list is present and nonempty, and dropping its connections yields
`none`. -/
theorem resourceToServer_usable_invariants_witness :
    (∃ uris, ∀ s : PlexServer, resourceToServer sampleResource = some s →
      s.connectionUris = some uris ∧ uris ≠ []) ∧
    resourceToServer { sampleResource with connections := some [] } = none := by
  constructor
  · refine ⟨["http://ra:2", "http://rb:3", "http://l:1"], fun s hs => ?_⟩
    obtain ⟨uris, hu, hne⟩ := (resourceToServer_usable_invariants sampleResource).2 s hs
    have huris : uris = ["http://ra:2", "http://rb:3", "http://l:1"] := by
      have := resourceToServer_connectionUris sampleResource s hs
      rw [hu] at this
      rw [Option.some_inj] at this
      rw [this]
      decide
    rw [← huris]
    exact ⟨hu, hne⟩
  · exact (resourceToServer_usable_invariants
      { sampleResource with connections := some [] }).1 (Or.inr rfl)

/-! ### C8: where the bearer token travels -/

/-- The query string always starts with the token parameter; extra parameters
follow after `&`. -/
lemma fetchQueryString_token_prefix (enc : String → String) (token : String)
    (ep : Option (List (String × String))) :
    ∃ rest, fetchQueryString enc token ep = "X-Plex-Token=" ++ token ++ rest := by
  simp only [fetchQueryString]
  by_cases h : extraParamsString enc ep ≠ ""
  · rw [if_pos h]
    exact ⟨"&" ++ extraParamsString enc ep, by rw [String.append_assoc]⟩
  · rw [if_neg h]
    refine ⟨"", ?_⟩
    rw [String.append_empty]

/-- C8 fails as stated for probe calls: `testServerConnection` sends the
bearer token as the `X-Plex-Token` HTTP header and appends nothing to the
URL.  Concretely, probing `probeServer` issues exactly one request, whose
header list carries the token and whose URL `http://a:1/identity` does not
contain the token anywhere. -/
theorem probe_token_in_header_cex :
    (testServerConnection failTransport probeServer).2 =
      [probeRequest probeServer "http://a:1"] ∧
    ("X-Plex-Token", "tok") ∈ (probeRequest probeServer "http://a:1").headers ∧
    (probeRequest probeServer "http://a:1").url = "http://a:1/identity" ∧
    ¬ ("tok".toList <:+: (probeRequest probeServer "http://a:1").url.toList) := by
  exact ⟨by decide, by decide, by decide, by decide⟩

/-- C8 (amended): every data request issued by `fetchWithFallback` carries the
bearer token as the `X-Plex-Token` URL query parameter — joined to the path
with `&` when the path already contains `?`, with `?` otherwise — and never
as a header; `testServerConnection` probes instead pass the token as the
`X-Plex-Token` header, with a bare `/identity` URL. -/
theorem request_token_query_probe_token_header
    (enc : String → String) (path token : String)
    (ep : Option (List (String × String))) (method baseUrl : String)
    (server : PlexServer) (u : String) :
    (∀ kv ∈ (fetchAttemptRequest enc path token ep method baseUrl).headers,
      kv.1 ≠ "X-Plex-Token") ∧
    (∃ rest, (fetchAttemptRequest enc path token ep method baseUrl).url =
      baseUrl ++ path ++ (if path.toList.contains '?' then "&" else "?") ++
        ("X-Plex-Token=" ++ token ++ rest)) ∧
    ("X-Plex-Token", server.accessToken) ∈ (probeRequest server u).headers ∧
    (probeRequest server u).url = u ++ "/identity" := by
  refine ⟨?_, ?_, by simp [probeRequest, probeHeaders], rfl⟩
  · intro kv hkv
    simp only [fetchAttemptRequest, fetchHeaders, List.mem_singleton] at hkv
    rw [hkv]
    decide
  · obtain ⟨rest, hq⟩ := fetchQueryString_token_prefix enc token ep
    exact ⟨rest, by simp only [fetchAttemptRequest, fetchAttemptUrl, querySeparator, hq]⟩

/-- Closed instance of the amended C8, on a concrete path and token. -/
theorem request_token_query_probe_token_header_witness :
    (∀ kv ∈ (fetchAttemptRequest id "/p" "t7" none "GET" "http://a:1").headers,
      kv.1 ≠ "X-Plex-Token") ∧
    (∃ rest, (fetchAttemptRequest id "/p" "t7" none "GET" "http://a:1").url =
      "http://a:1" ++ "/p" ++ (if "/p".toList.contains '?' then "&" else "?") ++
        ("X-Plex-Token=" ++ "t7" ++ rest)) ∧
    ("X-Plex-Token", "tok") ∈ (probeRequest probeServer "u").headers ∧
    (probeRequest probeServer "u").url = "u" ++ "/identity" := by
  have h := request_token_query_probe_token_header id "/p" "t7" none "GET" "http://a:1"
    probeServer "u"
  exact ⟨h.1, h.2.1, h.2.2.1, h.2.2.2⟩

/-! ### C10: bounded recursion of `getPhotosRecursively` -/

/-- Depth bound for the requests issued by the recursive directory walk,
proved by induction on the remaining depth budget. -/
lemma getPhotosRecursivelyRequests_bounds :
    ∀ (fuel : Nat) (contents : String → List PlexPhotoItem) (directoryKey : String)
      (depth maxDepth : Nat), maxDepth + 1 - depth ≤ fuel →
      ∀ p ∈ getPhotosRecursivelyRequests contents directoryKey depth maxDepth,
        depth ≤ p.2 ∧ p.2 ≤ maxDepth := by
  intro fuel
  induction fuel with
  | zero =>
    intro contents dk depth maxDepth hfuel p hp
    have hdepth : depth > maxDepth := by omega
    rw [getPhotosRecursivelyRequests, dif_pos hdepth] at hp
    simp at hp
  | succ n ih =>
    intro contents dk depth maxDepth hfuel p hp
    by_cases hdepth : depth > maxDepth
    · rw [getPhotosRecursivelyRequests, dif_pos hdepth] at hp
      simp at hp
    · rw [getPhotosRecursivelyRequests, dif_neg hdepth] at hp
      rcases List.mem_cons.1 hp with hp0 | hpflat
      · rw [hp0]
        exact ⟨Nat.le_refl depth, by omega⟩
      · obtain ⟨item, _, hpitem⟩ := List.mem_flatMap.1 hpflat
        split at hpitem
        · simp at hpitem
        · split at hpitem
          · have hrec := ih contents _ (depth + 1) maxDepth (by omega) p hpitem
            exact ⟨by omega, hrec.2⟩
          · simp at hpitem

/-- C10: the recursive photo walk is depth-bounded.  A call with
`depth > maxDepth` returns the empty list and performs no directory request
at all, and every directory request the walk does perform is issued at a
depth between the starting depth and `maxDepth` — each recursive step
increases the depth by exactly one, so the recursion terminates. -/
theorem getPhotosRecursively_depth_bounded
    (contents : String → List PlexPhotoItem) (directoryKey : String)
    (depth maxDepth : Nat) :
    (depth > maxDepth →
      getPhotosRecursively contents directoryKey depth maxDepth = [] ∧
      getPhotosRecursivelyRequests contents directoryKey depth maxDepth = []) ∧
    (∀ p ∈ getPhotosRecursivelyRequests contents directoryKey depth maxDepth,
      depth ≤ p.2 ∧ p.2 ≤ maxDepth) := by
  constructor
  · intro hdepth
    constructor
    · rw [getPhotosRecursively, dif_pos hdepth]
    · rw [getPhotosRecursivelyRequests, dif_pos hdepth]
  · exact getPhotosRecursivelyRequests_bounds (maxDepth + 1 - depth) contents
      directoryKey depth maxDepth (Nat.le_refl _)

/-- Closed instance of C10: on an oracle whose every listing is a container,
a call past the depth limit does nothing, and a depth-0 walk with
`maxDepth = 2` only requests directories at depths 0, 1 and 2. -/
theorem getPhotosRecursively_depth_bounded_witness :
    (getPhotosRecursively loopContents "root" 5 2 = [] ∧
      getPhotosRecursivelyRequests loopContents "root" 5 2 = []) ∧
    (∀ p ∈ getPhotosRecursivelyRequests loopContents "root" 0 2,
      0 ≤ p.2 ∧ p.2 ≤ 2) :=
  ⟨(getPhotosRecursively_depth_bounded loopContents "root" 5 2).1 (by omega),
    (getPhotosRecursively_depth_bounded loopContents "root" 0 2).2⟩

end TruPlexPhotos
